import Mathlib

/-!
Shallow embedding of the order-placement core of the `mcp-servers` shop
backend (`src/backend/main.py`, `src/backend/models.py`): inventory items,
orders and order lines stored in a relational store, and the MCP tools
`place_order`, `mark_order_shipped`, `update_item`, plus the
spec-described `cancel_order`.

Conventions of the embedding:
- SQL rows become Lean structures; the database becomes a `Store` of lists.
- Python `int` is `Int` (quantities may go negative), `float` prices are
  modelled exactly as `ℚ` (the claims are about the algebraic structure of
  the computations, which is identical), ids are `Nat`.
- A `select ... .first()` becomes `List.find?`; mutating the found ORM
  object in place becomes replacing the first matching list element
  (SQLAlchemy's session identity map means repeated selects of the same
  row inside one `place_order` session yield the same object, so repeated
  decrements compound — the first-match replacement models exactly that,
  applied once per request line in sequence).
- `created_at` timestamps are an abstract `Nat` passed in by the caller.
-/

namespace Shop

/-- `models.InventoryItem` (table `inventory_items`). -/
@[ext] structure InventoryItem where
  id : Nat
  business_id : Nat
  name : String
  sku : Option String
  category : Option String
  price : ℚ
  qty : Int
  unit : Option String
deriving Repr, DecidableEq

/-- `models.Business` (table `businesses`; only the columns the modelled
tools read — ownership and identity). -/
@[ext] structure Business where
  id : Nat
  owner_id : Nat
  name : String
deriving Repr, DecidableEq

/-- `models.Order` (table `orders`). -/
@[ext] structure Order where
  id : Nat
  business_id : Nat
  customer_name : String
  customer_contact : String
  status : String
  total_amount : ℚ
  created_at : Nat
deriving Repr, DecidableEq

/-- `models.OrderItem` (table `order_items`). -/
@[ext] structure OrderItem where
  id : Nat
  order_id : Nat
  inventory_item_id : Nat
  name : String
  qty : Int
  unit_price : ℚ
  total_price : ℚ
deriving Repr, DecidableEq

/-- The relational store backing `AsyncSessionLocal`, with the autoincrement
counters the database would keep for primary keys. -/
@[ext] structure Store where
  businesses : List Business
  items : List InventoryItem
  orders : List Order
  order_items : List OrderItem
  nextOrderId : Nat
  nextOrderItemId : Nat
deriving Repr, DecidableEq

/-- `select(InventoryItem).where(InventoryItem.id == item_id,
InventoryItem.business_id == business_id)` then `.first()`
(main.py line 293). -/
def findItem (items : List InventoryItem) (business_id item_id : Nat) :
    Option InventoryItem :=
  items.find? (fun r => r.id == item_id && r.business_id == business_id)

/-- One reserved line of a `place_order` request: the tuple
`(db_item, qty, float(db_item.price), line_total)` appended to
`order_items` in main.py line 302, with the `db_item` reference replaced
by the fields the commit phase reads (`id` and `name`). -/
@[ext] structure ResLine where
  item_id : Nat
  name : String
  qty : Int
  unit_price : ℚ
  line_total : ℚ
deriving Repr, DecidableEq

/-- Errors returned (as strings in the source) by the check loop of
`place_order`, main.py lines 296-299. -/
inductive PlaceError where
  | itemNotFound (item_id business_id : Nat)
  | insufficientStock (name : String)
deriving Repr, DecidableEq

/-- The check loop of `place_order` (main.py lines 290-302): resolve each
`(item_id, qty)` line in request order, failing on the first missing item
or line with `db_item.qty < qty`; no state is mutated here (only
selects are executed). -/
def reserveLines (items : List InventoryItem) (business_id : Nat) :
    List (Nat × Int) → Except PlaceError (List ResLine)
  | [] => .ok []
  | (item_id, qty) :: rest =>
    match findItem items business_id item_id with
    | none => .error (.itemNotFound item_id business_id)
    | some db_item =>
      if db_item.qty < qty then
        .error (.insufficientStock db_item.name)
      else
        match reserveLines items business_id rest with
        | .error e => .error e
        | .ok tail =>
          .ok ({ item_id := item_id, name := db_item.name, qty := qty,
                 unit_price := db_item.price,
                 line_total := db_item.price * qty } :: tail)

/-- `db_item.qty = db_item.qty - qty` (main.py line 314) on the object the
check loop's select found: decrement the first item matching both the id
and the business. -/
def decFirst (business_id item_id : Nat) (qty : Int) :
    List InventoryItem → List InventoryItem
  | [] => []
  | r :: rs =>
    if r.id == item_id && r.business_id == business_id then
      { r with qty := r.qty - qty } :: rs
    else
      r :: decFirst business_id item_id qty rs

/-- `place_order` (main.py lines 281-316). Request lines are
`(item_id, qty)` pairs from the `items: List[dict]` argument. On any check
failure the function returns the error string before anything is added to
the session, so the store is returned unchanged; on success the order row,
its order-item rows, and the inventory decrements are committed, and the
new order id and total are returned. -/
def place_order (s : Store) (business_id : Nat)
    (customer_name customer_contact : String) (now : Nat)
    (req : List (Nat × Int)) : Store × Except PlaceError (Nat × ℚ) :=
  match reserveLines s.items business_id req with
  | .error e => (s, .error e)
  | .ok lines =>
    let total : ℚ := (lines.map (fun l => l.line_total)).sum
    let order : Order :=
      { id := s.nextOrderId, business_id := business_id,
        customer_name := customer_name, customer_contact := customer_contact,
        status := "pending", total_amount := total, created_at := now }
    let ois : List OrderItem :=
      (List.range lines.length).zip lines |>.map (fun p =>
        { id := s.nextOrderItemId + p.1, order_id := order.id,
          inventory_item_id := p.2.item_id, name := p.2.name,
          qty := p.2.qty, unit_price := p.2.unit_price,
          total_price := p.2.line_total })
    let items' := lines.foldl
      (fun its l => decFirst business_id l.item_id l.qty its) s.items
    ({ s with items := items',
              orders := s.orders ++ [order],
              order_items := s.order_items ++ ois,
              nextOrderId := s.nextOrderId + 1,
              nextOrderItemId := s.nextOrderItemId + lines.length },
     .ok (order.id, total))

/-- The join condition of `mark_order_shipped`'s select (main.py line 270):
the order row, joined to `businesses`, has the given id and an owning
business with the given owner. -/
def orderOwnedBy (businesses : List Business) (owner_id order_id : Nat)
    (o : Order) : Bool :=
  o.id == order_id &&
    businesses.any (fun b => b.id == o.business_id && b.owner_id == owner_id)

/-- `order.status = "shipped"` (main.py line 275) on the first order the
select found. -/
def setShippedFirst (businesses : List Business) (owner_id order_id : Nat) :
    List Order → List Order
  | [] => []
  | o :: os =>
    if orderOwnedBy businesses owner_id order_id o then
      { o with status := "shipped" } :: os
    else
      o :: setShippedFirst businesses owner_id order_id os

/-- `mark_order_shipped` (main.py lines 266-277): find the order for this
owner; if absent return the not-found message, otherwise set its status to
`"shipped"` (unconditionally — the current status is never inspected) and
commit. -/
def mark_order_shipped (s : Store) (owner_id order_id : Nat) :
    Store × String :=
  match s.orders.find? (orderOwnedBy s.businesses owner_id order_id) with
  | none => (s, "Order not found or not authorized.")
  | some _ =>
    ({ s with orders := setShippedFirst s.businesses owner_id order_id s.orders },
     "Order marked shipped.")

/-- The join condition of `update_item`'s select (main.py line 218): the
inventory item has the given id and its business is owned by `owner_id`. -/
def itemOwnedBy (businesses : List Business) (owner_id item_id : Nat)
    (r : InventoryItem) : Bool :=
  r.id == item_id &&
    businesses.any (fun b => b.id == r.business_id && b.owner_id == owner_id)

/-- The four conditional field assignments of `update_item`
(main.py lines 223-230). -/
def applyItemUpdate (name : Option String) (price : Option ℚ)
    (qty : Option Int) (category : Option String) (item : InventoryItem) :
    InventoryItem :=
  let item := match name with | some n => { item with name := n } | none => item
  let item := match price with | some p => { item with price := p } | none => item
  let item := match qty with | some q => { item with qty := q } | none => item
  match category with | some c => { item with category := c } | none => item

/-- Field update on the first item the select found. -/
def updateFirst (businesses : List Business) (owner_id item_id : Nat)
    (name : Option String) (price : Option ℚ) (qty : Option Int)
    (category : Option String) : List InventoryItem → List InventoryItem
  | [] => []
  | r :: rs =>
    if itemOwnedBy businesses owner_id item_id r then
      applyItemUpdate name price qty category r :: rs
    else
      r :: updateFirst businesses owner_id item_id name price qty category rs

/-- `update_item` (main.py lines 206-232): find the owner's item; if absent
return the not-authorized message, otherwise apply the provided optional
field updates and commit. -/
def update_item (s : Store) (owner_id item_id : Nat) (name : Option String)
    (price : Option ℚ) (qty : Option Int) (category : Option String) :
    Store × String :=
  match s.items.find? (itemOwnedBy s.businesses owner_id item_id) with
  | none => (s, "Item not found or not authorized.")
  | some _ =>
    ({ s with items := updateFirst s.businesses owner_id item_id
                          name price qty category s.items },
     "Item updated.")

/-- Result kinds of the spec's `cancel_order` (spec §4.3, §6, §7). -/
inductive CancelResult where
  | ok
  | notFound
  | invalidTransition
deriving Repr, DecidableEq

/-- `increment(item_id, amount)` of the spec's InventoryRepository
(spec §4.1): add `amount` back to the item's quantity; a no-op when the
item no longer exists ("the reference may dangle ... must not corrupt
the historical order"). -/
def incFirst (item_id : Nat) (qty : Int) :
    List InventoryItem → List InventoryItem
  | [] => []
  | r :: rs =>
    if r.id == item_id then
      { r with qty := r.qty + qty } :: rs
    else
      r :: incFirst item_id qty rs

/-- The order lines belonging to one order. -/
def linesOf (order_items : List OrderItem) (order_id : Nat) :
    List OrderItem :=
  order_items.filter (fun oi => oi.order_id == order_id)

/-- Status update on the first matching order. -/
def setStatusFirst (business_id order_id : Nat) (status : String) :
    List Order → List Order
  | [] => []
  | o :: os =>
    if o.id == order_id && o.business_id == business_id then
      { o with status := status } :: os
    else
      o :: setStatusFirst business_id order_id status os

/-- Modelled from the spec: `cancel_order(business_id, order_id)` is listed
in spec §6 and specified in §4.3 and §8, but no implementation exists in
the source tree (only `mark_order_shipped` is implemented). Per §4.3: only
a `pending` order may be cancelled; cancellation releases the reserved
stock back (increment each line's quantity via the repository's
`increment`) and transitions the order to `cancelled`; on any other
current status the call fails with `InvalidTransition` and changes
nothing. -/
def cancel_order (s : Store) (business_id order_id : Nat) :
    Store × CancelResult :=
  match s.orders.find? (fun o => o.id == order_id && o.business_id == business_id) with
  | none => (s, .notFound)
  | some o =>
    if o.status = "pending" then
      let items' := (linesOf s.order_items o.id).foldl
        (fun its oi => incFirst oi.inventory_item_id oi.qty its) s.items
      ({ s with items := items',
                orders := setStatusFirst business_id order_id "cancelled" s.orders },
       .ok)
    else
      (s, .invalidTransition)

instance : DecidableEq (Except PlaceError (Nat × ℚ)) := fun a b =>
  match a, b with
  | .error x, .error y => decidable_of_iff (x = y) (by simp)
  | .ok x, .ok y => decidable_of_iff (x = y) (by simp)
  | .error _, .ok _ => isFalse (by simp)
  | .ok _, .error _ => isFalse (by simp)

/-- Total quantity a request asks for a given item id, across all of its
lines (a request may list the same id several times). -/
def reqTotal (req : List (Nat × Int)) (item_id : Nat) : Int :=
  ((req.filter (fun l => l.1 == item_id)).map Prod.snd).sum

/-- Total quantity a set of order lines reserved for a given item id. -/
def linesTotalFor (ois : List OrderItem) (item_id : Nat) : Int :=
  ((ois.filter (fun oi => oi.inventory_item_id == item_id)).map
    (fun oi => oi.qty)).sum

/-- A concrete store used to instantiate the theorems: one business, a
widget (id 1, price 5/2, stock 5) and a gadget (id 2, price 1, stock 10);
no orders yet. -/
def sampleStore : Store :=
  { businesses := [{ id := 1, owner_id := 1, name := "Shoppe" }],
    items :=
      [{ id := 1, business_id := 1, name := "widget", sku := none,
         category := none, price := 5/2, qty := 5, unit := none },
       { id := 2, business_id := 1, name := "gadget", sku := none,
         category := none, price := 1, qty := 10, unit := none }],
    orders := [], order_items := [],
    nextOrderId := 1, nextOrderItemId := 1 }

/-- `sampleStore` after a committed pending order (id 7) for 3 widgets and
4 gadgets, as `place_order` would leave it. -/
def pendingOrderStore : Store :=
  { sampleStore with
    items :=
      [{ id := 1, business_id := 1, name := "widget", sku := none,
         category := none, price := 5/2, qty := 2, unit := none },
       { id := 2, business_id := 1, name := "gadget", sku := none,
         category := none, price := 1, qty := 6, unit := none }],
    orders :=
      [{ id := 7, business_id := 1, customer_name := "carol",
         customer_contact := "+1", status := "pending",
         total_amount := 23/2, created_at := 0 }],
    order_items :=
      [{ id := 1, order_id := 7, inventory_item_id := 1, name := "widget",
         qty := 3, unit_price := 5/2, total_price := 15/2 },
       { id := 2, order_id := 7, inventory_item_id := 2, name := "gadget",
         qty := 4, unit_price := 1, total_price := 4 }],
    nextOrderId := 8, nextOrderItemId := 3 }

/-- `pendingOrderStore` with the order already cancelled. -/
def cancelledOrderStore : Store :=
  { pendingOrderStore with
    orders :=
      [{ id := 7, business_id := 1, customer_name := "carol",
         customer_contact := "+1", status := "cancelled",
         total_amount := 23/2, created_at := 0 }] }

/-- `pendingOrderStore` with the order already shipped. -/
def shippedOrderStore : Store :=
  { pendingOrderStore with
    orders :=
      [{ id := 7, business_id := 1, customer_name := "carol",
         customer_contact := "+1", status := "shipped",
         total_amount := 23/2, created_at := 0 }] }

/-! ## Helper lemmas -/

theorem findItem_some {items : List InventoryItem} {bid iid : Nat}
    {it : InventoryItem} (h : findItem items bid iid = some it) :
    it ∈ items ∧ it.id = iid ∧ it.business_id = bid := by
  unfold findItem at h
  have hmem := List.mem_of_find?_eq_some h
  have hp := List.find?_some h
  simp only [Bool.and_eq_true, beq_iff_eq] at hp
  exact ⟨hmem, hp.1, hp.2⟩

theorem reserveLines_proj {items : List InventoryItem} {bid : Nat} :
    ∀ {req : List (Nat × Int)} {lines : List ResLine},
      reserveLines items bid req = .ok lines →
      lines.map (fun rl => (rl.item_id, rl.qty)) = req
  | [], lines, h => by
    unfold reserveLines at h
    cases h
    rfl
  | (iid, q) :: rest, lines, h => by
    unfold reserveLines at h
    cases hf : findItem items bid iid with
    | none => rw [hf] at h; cases h
    | some it =>
      rw [hf] at h
      dsimp only at h
      by_cases hq : it.qty < q
      · rw [if_pos hq] at h; cases h
      · rw [if_neg hq] at h
        cases hr : reserveLines items bid rest with
        | error e => rw [hr] at h; cases h
        | ok tail =>
          rw [hr] at h
          cases h
          simpa using reserveLines_proj hr

theorem reserveLines_line_total {items : List InventoryItem} {bid : Nat} :
    ∀ {req : List (Nat × Int)} {lines : List ResLine},
      reserveLines items bid req = .ok lines →
      ∀ rl ∈ lines, rl.line_total = rl.unit_price * rl.qty
  | [], lines, h => by
    unfold reserveLines at h
    cases h
    intro rl hrl
    cases hrl
  | (iid, q) :: rest, lines, h => by
    unfold reserveLines at h
    cases hf : findItem items bid iid with
    | none => rw [hf] at h; cases h
    | some it =>
      rw [hf] at h
      dsimp only at h
      by_cases hq : it.qty < q
      · rw [if_pos hq] at h; cases h
      · rw [if_neg hq] at h
        cases hr : reserveLines items bid rest with
        | error e => rw [hr] at h; cases h
        | ok tail =>
          rw [hr] at h
          cases h
          intro rl hrl
          rcases List.mem_cons.mp hrl with hhd | htl
          · subst hhd; rfl
          · exact reserveLines_line_total hr rl htl

theorem reserveLines_found {items : List InventoryItem} {bid : Nat} :
    ∀ {req : List (Nat × Int)} {lines : List ResLine},
      reserveLines items bid req = .ok lines →
      ∀ p ∈ req, ∃ it, findItem items bid p.1 = some it
  | [], lines, h => by
    intro p hp
    cases hp
  | (iid, q) :: rest, lines, h => by
    unfold reserveLines at h
    cases hf : findItem items bid iid with
    | none => rw [hf] at h; cases h
    | some it =>
      rw [hf] at h
      dsimp only at h
      by_cases hq : it.qty < q
      · rw [if_pos hq] at h; cases h
      · rw [if_neg hq] at h
        cases hr : reserveLines items bid rest with
        | error e => rw [hr] at h; cases h
        | ok tail =>
          intro p hp
          rcases List.mem_cons.mp hp with hhd | htl
          · subst hhd; exact ⟨it, hf⟩
          · exact reserveLines_found hr p htl

/-! ## Claim theorems -/

/-- C1: the claim says `quantity_on_hand` can never become negative, in
particular for a request listing the same `item_id` more than once. The
code violates this: each line is checked against the pre-decrement stock,
and the decrements then compound on the same row. With 5 widgets on hand,
a single order for `[(1, 3), (1, 3)]` is accepted and leaves the widget's
`qty` at `-1`. -/
theorem place_order_duplicate_request_negative_qty :
    (place_order sampleStore 1 "dave" "+2" 0 [(1, 3), (1, 3)]).2 =
      .ok (1, 15) ∧
    ((place_order sampleStore 1 "dave" "+2" 0 [(1, 3), (1, 3)]).1.items.map
      (fun r => r.qty)) = [-1, 10] := by
  constructor
  · simp [place_order, reserveLines, findItem, sampleStore, decFirst]
    norm_num
  · simp [place_order, reserveLines, findItem, sampleStore, decFirst]

/-- C5: the claim says `place_order` rejects an empty request and any line
with `qty < 1`. The code does neither: the empty request is accepted and
commits an order with total `0`; a `qty = 0` line is accepted; a negative
`qty` line is accepted and even increments the stock (5 widgets become
7). -/
theorem place_order_accepts_invalid_requests :
    (place_order sampleStore 1 "erin" "+3" 0 []).2 = .ok (1, 0) ∧
    (place_order sampleStore 1 "erin" "+3" 0 []).1.orders.length = 1 ∧
    (place_order sampleStore 1 "erin" "+3" 0 [(1, 0)]).2 = .ok (1, 0) ∧
    ((place_order sampleStore 1 "erin" "+3" 0 [(1, -2)]).1.items.map
      (fun r => r.qty)) = [7, 10] := by
  refine ⟨?_, ?_, ?_, ?_⟩ <;>
    simp [place_order, reserveLines, findItem, sampleStore, decFirst]

/-- C2: a `place_order` call that returns an error (item not found or
insufficient stock) leaves the whole store — every inventory quantity,
every order and every order line — exactly as it was: the error return
happens inside the check loop, before anything is added to the session. -/
theorem place_order_error_no_side_effects (s : Store) (bid : Nat)
    (cn cc : String) (now : Nat) (req : List (Nat × Int)) (e : PlaceError)
    (h : (place_order s bid cn cc now req).2 = .error e) :
    (place_order s bid cn cc now req).1 = s := by
  unfold place_order at h ⊢
  cases hr : reserveLines s.items bid req with
  | error e2 => rfl
  | ok lines => rw [hr] at h; simp at h

/-- Witness for C2: ordering 9 widgets (stock 5) fails with insufficient
stock and leaves `sampleStore` unchanged. -/
theorem place_order_error_no_side_effects_witness :
    (place_order sampleStore 1 "carl" "+4" 0 [(1, 9)]).2 =
      .error (.insufficientStock "widget") ∧
    (place_order sampleStore 1 "carl" "+4" 0 [(1, 9)]).1 = sampleStore :=
  ⟨rfl, place_order_error_no_side_effects sampleStore 1 "carl" "+4" 0
    [(1, 9)] (.insufficientStock "widget") rfl⟩

/-- C7: `update_item` (including a price change) never touches the orders
or the order-line snapshots: every committed order keeps its
`total_amount` and every line keeps its `unit_price` and `total_price`,
because the order and order-item tables are not written at all. -/
theorem update_item_preserves_orders (s : Store) (owner_id item_id : Nat)
    (name : Option String) (price : Option ℚ) (qty : Option Int)
    (category : Option String) :
    (update_item s owner_id item_id name price qty category).1.orders =
      s.orders ∧
    (update_item s owner_id item_id name price qty category).1.order_items =
      s.order_items := by
  unfold update_item
  cases s.items.find? (itemOwnedBy s.businesses owner_id item_id) <;>
    exact ⟨rfl, rfl⟩

theorem setShippedFirst_split {bs : List Business} {owner_id order_id : Nat} :
    ∀ {os : List Order} {o : Order},
      os.find? (orderOwnedBy bs owner_id order_id) = some o →
      ∃ pre post, os = pre ++ o :: post ∧
        (∀ o' ∈ pre, orderOwnedBy bs owner_id order_id o' = false) ∧
        setShippedFirst bs owner_id order_id os =
          pre ++ { o with status := "shipped" } :: post
  | [], o, h => by cases h
  | a :: os, o, h => by
    by_cases ha : orderOwnedBy bs owner_id order_id a
    · rw [List.find?_cons_of_pos _ ha] at h
      cases h
      exact ⟨[], os, rfl, by simp, by unfold setShippedFirst; rw [if_pos ha]; rfl⟩
    · rw [List.find?_cons_of_neg _ ha] at h
      obtain ⟨pre, post, h1, h2, h3⟩ := setShippedFirst_split h
      refine ⟨a :: pre, post, by rw [h1]; rfl, ?_, ?_⟩
      · intro o' ho'
        rcases List.mem_cons.mp ho' with rfl | htl
        · simpa using ha
        · exact h2 o' htl
      · unfold setShippedFirst
        rw [if_neg ha, h3]
        rfl

/-- C4 counterexample: the claim says `mark_order_shipped` on a
non-`pending` order (here: `cancelled`) returns `InvalidTransition` and
leaves the status unchanged. The code never inspects the current status:
on the cancelled order 7 it reports success and overwrites the status
with `"shipped"`. -/
theorem mark_order_shipped_cancelled_counterexample :
    cancelledOrderStore.orders.map (fun o => o.status) = ["cancelled"] ∧
    (mark_order_shipped cancelledOrderStore 1 7).2 = "Order marked shipped." ∧
    (mark_order_shipped cancelledOrderStore 1 7).1.orders.map
      (fun o => o.status) = ["shipped"] := by
  refine ⟨rfl, ?_, ?_⟩ <;>
    simp [mark_order_shipped, cancelledOrderStore, pendingOrderStore,
      sampleStore, orderOwnedBy, setShippedFirst]

/-- C4 (amended): whenever the owner's order exists — whatever its current
status — `mark_order_shipped` reports success and replaces exactly that
order's status with `"shipped"`; there is no pending-only guard and no
`InvalidTransition` outcome in the code. -/
theorem mark_order_shipped_any_status (s : Store) (owner_id order_id : Nat)
    (o : Order)
    (h : s.orders.find? (orderOwnedBy s.businesses owner_id order_id) = some o) :
    (mark_order_shipped s owner_id order_id).2 = "Order marked shipped." ∧
    ∃ pre post, s.orders = pre ++ o :: post ∧
      (mark_order_shipped s owner_id order_id).1.orders =
        pre ++ { o with status := "shipped" } :: post := by
  obtain ⟨pre, post, h1, _, h3⟩ := setShippedFirst_split h
  unfold mark_order_shipped
  rw [h]
  exact ⟨rfl, pre, post, h1, h3⟩

/-- Witness for C4: the already-`shipped` order 7 is found and re-marked
shipped, with success reported. -/
theorem mark_order_shipped_any_status_witness :
    (mark_order_shipped shippedOrderStore 1 7).2 = "Order marked shipped." ∧
    ∃ pre post,
      shippedOrderStore.orders =
        pre ++ ({ id := 7, business_id := 1, customer_name := "carol",
                  customer_contact := "+1", status := "shipped",
                  total_amount := 23/2, created_at := 0 } : Order) :: post ∧
      (mark_order_shipped shippedOrderStore 1 7).1.orders =
        pre ++ ({ id := 7, business_id := 1, customer_name := "carol",
                  customer_contact := "+1", status := "shipped",
                  total_amount := 23/2, created_at := 0 } : Order) :: post :=
  mark_order_shipped_any_status shippedOrderStore 1 7 _ rfl

theorem setShippedFirst_forall2 (bs : List Business) (owner_id order_id : Nat)
    (os : List Order) :
    List.Forall₂ (fun o o' : Order =>
        o' = o ∨ o' = { o with status := "shipped" })
      os (setShippedFirst bs owner_id order_id os) := by
  induction os with
  | nil => exact .nil
  | cons o os ih =>
    unfold setShippedFirst
    by_cases h : orderOwnedBy bs owner_id order_id o
    · rw [if_pos h]
      exact .cons (Or.inr rfl) (List.forall₂_same.mpr (fun x _ => Or.inl rfl))
    · rw [if_neg h]
      exact .cons (Or.inl rfl) ih

/-- C9: `mark_order_shipped` only ever writes the `status` column: the
inventory, the order lines, and the businesses are untouched, and every
order row is either exactly as before or differs from its old value in
the `status` field alone (so `business_id`, `customer_name`,
`customer_contact`, `total_amount` and `created_at` are all preserved). -/
theorem mark_order_shipped_frame (s : Store) (owner_id order_id : Nat) :
    (mark_order_shipped s owner_id order_id).1.items = s.items ∧
    (mark_order_shipped s owner_id order_id).1.order_items = s.order_items ∧
    (mark_order_shipped s owner_id order_id).1.businesses = s.businesses ∧
    List.Forall₂ (fun o o' : Order =>
        o' = o ∨ o' = { o with status := "shipped" })
      s.orders (mark_order_shipped s owner_id order_id).1.orders := by
  unfold mark_order_shipped
  cases s.orders.find? (orderOwnedBy s.businesses owner_id order_id) with
  | none =>
    exact ⟨rfl, rfl, rfl, List.forall₂_same.mpr (fun x _ => Or.inl rfl)⟩
  | some o =>
    exact ⟨rfl, rfl, rfl, setShippedFirst_forall2 _ _ _ _⟩

theorem place_order_ok_eq {s : Store} {bid : Nat} {cn cc : String} {now : Nat}
    {req : List (Nat × Int)} {lines : List ResLine}
    (hr : reserveLines s.items bid req = .ok lines) :
    place_order s bid cn cc now req =
      ({ s with
          items := lines.foldl
            (fun its l => decFirst bid l.item_id l.qty its) s.items,
          orders := s.orders ++
            [⟨s.nextOrderId, bid, cn, cc, "pending",
              (lines.map (fun l => l.line_total)).sum, now⟩],
          order_items := s.order_items ++
            ((List.range lines.length).zip lines).map (fun p =>
              ⟨s.nextOrderItemId + p.1, s.nextOrderId, p.2.item_id, p.2.name,
               p.2.qty, p.2.unit_price, p.2.line_total⟩),
          nextOrderId := s.nextOrderId + 1,
          nextOrderItemId := s.nextOrderItemId + lines.length },
       .ok (s.nextOrderId, (lines.map (fun l => l.line_total)).sum)) := by
  unfold place_order
  rw [hr]

theorem map_build_zip_range {β : Type} (lines : List ResLine)
    (f : Nat × ResLine → β) (g : ResLine → β)
    (hfg : ∀ p : Nat × ResLine, f p = g p.2) :
    ((List.range lines.length).zip lines).map f = lines.map g := by
  calc ((List.range lines.length).zip lines).map f
      = ((List.range lines.length).zip lines).map (g ∘ Prod.snd) :=
        List.map_congr_left (fun p _ => hfg p)
    _ = (((List.range lines.length).zip lines).map Prod.snd).map g := by
        rw [List.map_map]
    _ = lines.map g := by
        rw [List.map_snd_zip _ _ (by simp)]

theorem decFirst_eq_map {bid iid : Nat} {q : Int} :
    ∀ {items : List InventoryItem},
      (items.map (fun r => r.id)).Nodup →
      (∀ r ∈ items, r.id = iid → r.business_id = bid) →
      decFirst bid iid q items =
        items.map (fun r =>
          if r.id = iid then { r with qty := r.qty - q } else r)
  | [], _, _ => rfl
  | a :: items, hnodup, hbiz => by
    rw [List.map_cons, List.nodup_cons] at hnodup
    by_cases ha : a.id = iid
    · have hb : a.business_id = bid := hbiz a (by simp) ha
      have hrest : ∀ r ∈ items, ¬ r.id = iid := by
        intro r hrm hrid
        exact hnodup.1 (by
          rw [ha]
          exact hrid ▸ List.mem_map_of_mem (fun r => r.id) hrm)
      unfold decFirst
      rw [if_pos (by simp [ha, hb]), List.map_cons, if_pos ha]
      congr 1
      symm
      rw [List.map_congr_left
        (fun r hrm => if_neg (hrest r hrm) :
          ∀ r ∈ items, (if r.id = iid then
            { r with qty := r.qty - q } else r) = r)]
      exact List.map_id' items
    · unfold decFirst
      rw [if_neg (by simp [ha]), List.map_cons, if_neg ha]
      congr 1
      exact decFirst_eq_map hnodup.2
        (fun r hrm h2 => hbiz r (List.mem_cons_of_mem _ hrm) h2)

theorem foldl_decFirst_eq_map {bid : Nat} :
    ∀ (L : List (Nat × Int)) (items : List InventoryItem),
      (items.map (fun r => r.id)).Nodup →
      (∀ l ∈ L, ∀ r ∈ items, r.id = l.1 → r.business_id = bid) →
      L.foldl (fun its l => decFirst bid l.1 l.2 its) items =
        items.map (fun r => { r with qty := r.qty - reqTotal L r.id })
  | [], items, _, _ => by
    simp [reqTotal]
  | (iid, q) :: L, items, hnodup, hbiz => by
    rw [List.foldl_cons]
    rw [show decFirst bid (iid, q).1 (iid, q).2 items =
          items.map (fun r =>
            if r.id = iid then { r with qty := r.qty - q } else r) from
      decFirst_eq_map hnodup (fun r hrm h2 => hbiz (iid, q) (by simp) r hrm h2)]
    rw [foldl_decFirst_eq_map L _ ?hnd ?hbz]
    case hnd =>
      rw [List.map_map]
      rw [List.map_congr_left (g := fun r => r.id) (fun r _ => by
        by_cases hid : r.id = iid <;> simp [hid])]
      exact hnodup
    case hbz =>
      intro l hl r' hr'
      obtain ⟨r, hrm, rfl⟩ := List.mem_map.mp hr'
      by_cases hid : r.id = iid <;>
        simp only [hid, if_pos, if_neg, ite_true, ite_false] <;>
        intro h2 <;>
        exact hbiz l (List.mem_cons_of_mem _ hl) r hrm (by simpa [hid] using h2)
    rw [List.map_map]
    apply List.map_congr_left
    intro r _
    by_cases hid : r.id = iid
    · simp only [Function.comp, if_pos hid]
      have hcons : reqTotal ((iid, q) :: L) r.id = q + reqTotal L r.id := by
        simp [reqTotal, List.filter_cons, hid]
      simp [hcons, sub_sub]
    · simp only [Function.comp, if_neg hid]
      have hne : iid ≠ r.id := fun hh => hid hh.symm
      have hcons : reqTotal ((iid, q) :: L) r.id = reqTotal L r.id := by
        simp [reqTotal, List.filter_cons, hne]
      simp [hcons]

/-- C10: a successful `place_order` changes the inventory in exactly one
way: every item's `qty` drops by the total quantity the request asked for
that item's id (zero for items not named in the request), and every other
field — `price`, `name`, `sku`, `category`, `unit`, `business_id` — of
every item is untouched. Stated for stores whose item ids are unique, as
primary keys are. -/
theorem place_order_inventory_frame (s : Store) (bid : Nat) (cn cc : String)
    (now : Nat) (req : List (Nat × Int)) (oid : Nat) (total : ℚ)
    (hnodup : (s.items.map (fun r => r.id)).Nodup)
    (h : (place_order s bid cn cc now req).2 = .ok (oid, total)) :
    (place_order s bid cn cc now req).1.items =
      s.items.map (fun r => { r with qty := r.qty - reqTotal req r.id }) := by
  cases hr : reserveLines s.items bid req with
  | error e => rw [place_order] at h; rw [hr] at h; simp at h
  | ok lines =>
    rw [place_order_ok_eq hr]
    have hcond : ∀ l ∈ req, ∀ r ∈ s.items, r.id = l.1 → r.business_id = bid := by
      intro l hl r hrm hid
      obtain ⟨it, hit⟩ := reserveLines_found hr l hl
      obtain ⟨hmem, hid2, hbid⟩ := findItem_some hit
      have : r = it :=
        List.inj_on_of_nodup_map hnodup hrm hmem (by rw [hid, hid2])
      rw [this]
      exact hbid
    have hfold := foldl_decFirst_eq_map req s.items hnodup hcond
    rw [← hfold, ← reserveLines_proj hr, List.foldl_map]

/-- Witness for C10: placing `[(1, 3), (2, 4)]` against `sampleStore`
(unique ids 1, 2) rewrites the inventory to the per-id decremented map. -/
theorem place_order_inventory_frame_witness :
    (place_order sampleStore 1 "carol" "+1" 0 [(1, 3), (2, 4)]).1.items =
      sampleStore.items.map (fun r =>
        { r with qty := r.qty - reqTotal [(1, 3), (2, 4)] r.id }) :=
  place_order_inventory_frame sampleStore 1 "carol" "+1" 0 [(1, 3), (2, 4)]
    1 (23/2) (by decide)
    (by simp [place_order, reserveLines, findItem, sampleStore]; norm_num)

/-- C3: every order committed by a successful `place_order` satisfies the
total invariant: its `total_amount` is the sum of its own lines'
`total_price`, and each line's `total_price` is the line's quantity times
the unit price snapshotted at reservation time. Stated for stores whose
existing order lines do not already use the id the new order will get
(always true of ids handed out by the autoincrement counter). -/
theorem place_order_total_invariant (s : Store) (bid : Nat) (cn cc : String)
    (now : Nat) (req : List (Nat × Int)) (oid : Nat) (total : ℚ)
    (hfresh : ∀ oi ∈ s.order_items, oi.order_id ≠ s.nextOrderId)
    (h : (place_order s bid cn cc now req).2 = .ok (oid, total)) :
    ∃ o ∈ (place_order s bid cn cc now req).1.orders,
      o.id = oid ∧
      o.total_amount =
        ((linesOf (place_order s bid cn cc now req).1.order_items oid).map
          (fun oi => oi.total_price)).sum ∧
      ∀ oi ∈ linesOf (place_order s bid cn cc now req).1.order_items oid,
        oi.total_price = oi.unit_price * oi.qty := by
  cases hr : reserveLines s.items bid req with
  | error e => rw [place_order] at h; rw [hr] at h; simp at h
  | ok lines =>
    rw [place_order_ok_eq hr] at h ⊢
    obtain ⟨hoid, -⟩ : s.nextOrderId = oid ∧
        (lines.map (fun l => l.line_total)).sum = total := by simpa using h
    have hlines : linesOf
        (s.order_items ++
          ((List.range lines.length).zip lines).map (fun p =>
            (⟨s.nextOrderItemId + p.1, s.nextOrderId, p.2.item_id, p.2.name,
              p.2.qty, p.2.unit_price, p.2.line_total⟩ : OrderItem))) oid =
        ((List.range lines.length).zip lines).map (fun p =>
          (⟨s.nextOrderItemId + p.1, s.nextOrderId, p.2.item_id, p.2.name,
            p.2.qty, p.2.unit_price, p.2.line_total⟩ : OrderItem)) := by
      unfold linesOf
      rw [List.filter_append]
      rw [List.filter_eq_nil_iff.mpr (by
        intro oi hoi
        simp only [beq_iff_eq]
        rw [← hoid]
        exact hfresh oi hoi)]
      rw [List.filter_eq_self.mpr (by
        intro oi hoi
        obtain ⟨p, _, rfl⟩ := List.mem_map.mp hoi
        simp [hoid])]
      rfl
    refine ⟨⟨s.nextOrderId, bid, cn, cc, "pending",
        (lines.map (fun l => l.line_total)).sum, now⟩,
      List.mem_append_right _ (by simp), hoid, ?_, ?_⟩
    · rw [hlines]
      have hmt : (((List.range lines.length).zip lines).map (fun p =>
          (⟨s.nextOrderItemId + p.1, s.nextOrderId, p.2.item_id, p.2.name,
            p.2.qty, p.2.unit_price, p.2.line_total⟩ : OrderItem))).map
            (fun oi => oi.total_price) =
          lines.map (fun l => l.line_total) := by
        rw [List.map_map]
        exact map_build_zip_range lines _ _ (fun p => rfl)
      rw [hmt]
    · rw [hlines]
      intro oi hoi
      obtain ⟨p, hp, rfl⟩ := List.mem_map.mp hoi
      exact reserveLines_line_total hr p.2 (List.of_mem_zip hp).2

/-- Witness for C3: the order committed for `[(1, 3), (2, 4)]` against
`sampleStore` carries total `23/2 = 3 * 5/2 + 4 * 1`, matching its lines. -/
theorem place_order_total_invariant_witness :
    ∃ o ∈ (place_order sampleStore 1 "carol" "+1" 0 [(1, 3), (2, 4)]).1.orders,
      o.id = 1 ∧
      o.total_amount =
        ((linesOf (place_order sampleStore 1 "carol" "+1" 0
          [(1, 3), (2, 4)]).1.order_items 1).map
          (fun oi => oi.total_price)).sum ∧
      ∀ oi ∈ linesOf (place_order sampleStore 1 "carol" "+1" 0
          [(1, 3), (2, 4)]).1.order_items 1,
        oi.total_price = oi.unit_price * oi.qty :=
  place_order_total_invariant sampleStore 1 "carol" "+1" 0 [(1, 3), (2, 4)]
    1 (23/2) (by simp [sampleStore])
    (by simp [place_order, reserveLines, findItem, sampleStore]; norm_num)

/-- C6 counterexample: the claim says the distinct item ids are sorted
ascending before the per-item decrements. Submitting `[(2, 1), (1, 1)]`
commits the order lines — and hence runs the decrements — in the submitted
order `2, 1`, which is not ascending. -/
theorem place_order_unsorted_counterexample :
    ((place_order sampleStore 1 "fay" "+5" 0 [(2, 1), (1, 1)]).1.order_items.map
      (fun oi => oi.inventory_item_id)) = [2, 1] ∧
    ¬ List.Sorted (· ≤ ·)
      ((place_order sampleStore 1 "fay" "+5" 0 [(2, 1), (1, 1)]).1.order_items.map
        (fun oi => oi.inventory_item_id)) := by
  have hl : ((place_order sampleStore 1 "fay" "+5" 0
      [(2, 1), (1, 1)]).1.order_items.map (fun oi => oi.inventory_item_id)) =
      [2, 1] := by decide
  refine ⟨hl, ?_⟩
  rw [hl]
  decide

/-- C6 (amended): `place_order` performs no sorting and no deduplication:
the committed order lines — and the decrements folded over them — follow
the submission order of the request lines exactly, id for id and quantity
for quantity. -/
theorem place_order_request_order (s : Store) (bid : Nat) (cn cc : String)
    (now : Nat) (req : List (Nat × Int)) (oid : Nat) (total : ℚ)
    (h : (place_order s bid cn cc now req).2 = .ok (oid, total)) :
    (place_order s bid cn cc now req).1.order_items.map
        (fun oi => (oi.inventory_item_id, oi.qty)) =
      s.order_items.map (fun oi => (oi.inventory_item_id, oi.qty)) ++ req := by
  cases hr : reserveLines s.items bid req with
  | error e => rw [place_order] at h; rw [hr] at h; simp at h
  | ok lines =>
    rw [place_order_ok_eq hr]
    rw [List.map_append]
    congr 1
    have hmt : (((List.range lines.length).zip lines).map (fun p =>
        (⟨s.nextOrderItemId + p.1, s.nextOrderId, p.2.item_id, p.2.name,
          p.2.qty, p.2.unit_price, p.2.line_total⟩ : OrderItem))).map
          (fun oi => (oi.inventory_item_id, oi.qty)) =
        lines.map (fun l => (l.item_id, l.qty)) := by
      rw [List.map_map]
      exact map_build_zip_range lines _ _ (fun p => rfl)
    rw [hmt]
    exact reserveLines_proj hr

/-- Witness for C6 (amended): the lines of the order for `[(2, 1), (1, 1)]`
repeat the request verbatim, in submission order. -/
theorem place_order_request_order_witness :
    (place_order sampleStore 1 "fay" "+5" 0 [(2, 1), (1, 1)]).1.order_items.map
        (fun oi => (oi.inventory_item_id, oi.qty)) =
      sampleStore.order_items.map (fun oi => (oi.inventory_item_id, oi.qty)) ++
        [(2, 1), (1, 1)] :=
  place_order_request_order sampleStore 1 "fay" "+5" 0 [(2, 1), (1, 1)]
    1 (7/2)
    (by simp [place_order, reserveLines, findItem, sampleStore]; norm_num)

theorem incFirst_eq_map {iid : Nat} {q : Int} :
    ∀ {items : List InventoryItem},
      (items.map (fun r => r.id)).Nodup →
      incFirst iid q items =
        items.map (fun r =>
          if r.id = iid then { r with qty := r.qty + q } else r)
  | [], _ => rfl
  | a :: items, hnodup => by
    rw [List.map_cons, List.nodup_cons] at hnodup
    by_cases ha : a.id = iid
    · have hrest : ∀ r ∈ items, ¬ r.id = iid := by
        intro r hrm hrid
        exact hnodup.1 (by
          rw [ha]
          exact hrid ▸ List.mem_map_of_mem (fun r => r.id) hrm)
      unfold incFirst
      rw [if_pos (by simp [ha]), List.map_cons, if_pos ha]
      congr 1
      symm
      rw [List.map_congr_left
        (fun r hrm => if_neg (hrest r hrm) :
          ∀ r ∈ items, (if r.id = iid then
            { r with qty := r.qty + q } else r) = r)]
      exact List.map_id' items
    · unfold incFirst
      rw [if_neg (by simp [ha]), List.map_cons, if_neg ha]
      congr 1
      exact incFirst_eq_map hnodup.2

theorem foldl_incFirst_eq_map :
    ∀ (L : List OrderItem) (items : List InventoryItem),
      (items.map (fun r => r.id)).Nodup →
      L.foldl (fun its oi => incFirst oi.inventory_item_id oi.qty its) items =
        items.map (fun r =>
          { r with qty := r.qty + linesTotalFor L r.id })
  | [], items, _ => by simp [linesTotalFor]
  | oi :: L, items, hnodup => by
    rw [List.foldl_cons]
    rw [incFirst_eq_map hnodup]
    rw [foldl_incFirst_eq_map L _ ?hnd]
    case hnd =>
      rw [List.map_map]
      rw [List.map_congr_left (g := fun r => r.id) (fun r _ => by
        by_cases hid : r.id = oi.inventory_item_id <;> simp [hid])]
      exact hnodup
    rw [List.map_map]
    apply List.map_congr_left
    intro r _
    by_cases hid : r.id = oi.inventory_item_id
    · simp only [Function.comp, if_pos hid]
      have hcons : linesTotalFor (oi :: L) r.id =
          oi.qty + linesTotalFor L r.id := by
        simp [linesTotalFor, List.filter_cons, hid]
      simp [hcons, add_assoc]
    · simp only [Function.comp, if_neg hid]
      have hne : oi.inventory_item_id ≠ r.id := fun hh => hid hh.symm
      have hcons : linesTotalFor (oi :: L) r.id = linesTotalFor L r.id := by
        simp [linesTotalFor, List.filter_cons, hne]
      simp [hcons]

theorem setStatusFirst_split {bid oid : Nat} {st : String} :
    ∀ {os : List Order} {o : Order},
      os.find? (fun o' => o'.id == oid && o'.business_id == bid) = some o →
      ∃ pre post, os = pre ++ o :: post ∧
        setStatusFirst bid oid st os = pre ++ { o with status := st } :: post
  | [], o, h => by cases h
  | a :: os, o, h => by
    by_cases ha : (a.id == oid && a.business_id == bid) = true
    · rw [List.find?_cons_of_pos
        (p := fun o' : Order => o'.id == oid && o'.business_id == bid) _ ha] at h
      cases h
      exact ⟨[], os, rfl, by unfold setStatusFirst; rw [if_pos ha]; rfl⟩
    · rw [List.find?_cons_of_neg
        (p := fun o' : Order => o'.id == oid && o'.business_id == bid) _ ha] at h
      obtain ⟨pre, post, h1, h3⟩ := setStatusFirst_split h
      exact ⟨a :: pre, post, by rw [h1]; rfl,
        by unfold setStatusFirst; rw [if_neg ha, h3]; rfl⟩

/-- C8 (against the spec-modelled `cancel_order`, absent from the source):
on a `pending` order, `cancel_order` reports success, increments each
inventory item by the total quantity that order's lines reserved for it
(so each line's quantity is restored exactly), and flips that order's
status to `cancelled`; on a `shipped` order it returns `InvalidTransition`
and changes nothing. Stated for stores with unique item ids. -/
theorem cancel_order_spec (s : Store) (bid oid : Nat) (o : Order)
    (hfind : s.orders.find?
      (fun o' => o'.id == oid && o'.business_id == bid) = some o)
    (hnodup : (s.items.map (fun r => r.id)).Nodup) :
    (o.status = "shipped" →
      cancel_order s bid oid = (s, CancelResult.invalidTransition)) ∧
    (o.status = "pending" →
      (cancel_order s bid oid).2 = CancelResult.ok ∧
      (cancel_order s bid oid).1.items =
        s.items.map (fun r =>
          { r with
            qty := r.qty + linesTotalFor (linesOf s.order_items oid) r.id }) ∧
      ∃ pre post, s.orders = pre ++ o :: post ∧
        (cancel_order s bid oid).1.orders =
          pre ++ { o with status := "cancelled" } :: post) := by
  have hid : o.id = oid := by
    have := List.find?_some hfind
    simp only [Bool.and_eq_true, beq_iff_eq] at this
    exact this.1
  unfold cancel_order
  rw [hfind]
  dsimp only
  constructor
  · intro hst
    rw [hst]
    rw [if_neg (by simp)]
  · intro hst
    rw [if_pos hst]
    refine ⟨rfl, ?_, ?_⟩
    · rw [hid]
      exact foldl_incFirst_eq_map _ _ hnodup
    · obtain ⟨pre, post, h1, h3⟩ := setStatusFirst_split hfind
      exact ⟨pre, post, h1, h3⟩

/-- Witness for C8: cancelling the shipped order 7 is rejected with no
change; cancelling the pending order 7 succeeds and restores the 3
widgets and 4 gadgets its lines had reserved. -/
theorem cancel_order_spec_witness :
    cancel_order shippedOrderStore 1 7 =
      (shippedOrderStore, CancelResult.invalidTransition) ∧
    (cancel_order pendingOrderStore 1 7).2 = CancelResult.ok ∧
    (cancel_order pendingOrderStore 1 7).1.items =
      pendingOrderStore.items.map (fun r =>
        { r with
          qty := r.qty +
            linesTotalFor (linesOf pendingOrderStore.order_items 7) r.id }) :=
  ⟨(cancel_order_spec shippedOrderStore 1 7 _ rfl (by decide)).1 rfl,
   ((cancel_order_spec pendingOrderStore 1 7 _ rfl (by decide)).2 rfl).1,
   ((cancel_order_spec pendingOrderStore 1 7 _ rfl (by decide)).2 rfl).2.1⟩

end Shop
